import Mathlib

/-!
Shallow embedding of the datadog-agent updater core
(`pkg/updater/org_config.go` and the installer/extractor file) together
with proofs about its catalog synchronisation, package extraction and
install staging behaviour.
-/

namespace Updater

/-! ## Data model (`pkg/updater/org_config.go`) -/

/-- `Package` — a downloadable package, mirroring the Go struct field for
field (JSON tags `package`, `version`, `sha256`, `url`, `size`,
`platform`, `arch`). -/
structure Package where
  name : String
  version : String
  sha256 : String
  url : String
  size : Int
  platform : String
  arch : String
deriving Repr, DecidableEq

/-- `catalog` — a list of packages, mirroring the Go struct. -/
structure Catalog where
  packages : List Package
deriving Repr, DecidableEq

/-- A raw JSON document, quotiented by the outcome of
`json.Unmarshal` into a `catalog` value: either it decodes to a
catalog or decoding fails with an error message. -/
inductive RawDoc where
  | ok (c : Catalog)
  | bad (msg : String)
deriving Repr, DecidableEq

/-- `json.Unmarshal(doc, &catalog)` on the quotiented document. -/
def jsonUnmarshalCatalog : RawDoc → Except String Catalog
  | .ok c => .ok c
  | .bad msg => .error msg

/-- `state.ApplyStatus` — the acknowledgement sent through
`applyStateCallback`: `ApplyStateAcknowledged` or `ApplyStateError`
with the error string. -/
inductive ApplyState where
  | acknowledged
  | error (msg : String)
deriving Repr, DecidableEq

/-- The mutable fields of `orgConfig` observable through its methods:
the in-memory merged catalog and whether the `catalogReceived` channel
has been closed (the latch). -/
structure OrgState where
  catalog : Catalog
  latchOpen : Bool
deriving Repr, DecidableEq

/-! ## `onCatalogUpdate` -/

/-- The first loop of `onCatalogUpdate`: decode each received config in
iteration order, appending its packages to the merged catalog; on the
first decode failure, return the failing config path and the error
string (the Go code acks that one config with an error and returns). -/
def decodeLoop (merged : List Package) :
    List (String × RawDoc) → Except (String × String) (List Package)
  | [] => .ok merged
  | (path, raw) :: rest =>
    match jsonUnmarshalCatalog raw with
    | .error e => .error (path, e)
    | .ok c => decodeLoop (merged ++ c.packages) rest

/-- `orgConfig.onCatalogUpdate` — the update callback. `rawCatalog` is
the embedded baseline catalog document (its decode error is only
logged, leaving the merged catalog empty); `catalogConfigs` is the
received config-ID → raw-JSON map in iteration order. Returns the new
`orgConfig` state and the list of acknowledgements issued through
`applyStateCallback`, in order. On a decode failure the function
returns after acking only the failing config; on success it acks every
config with `Acknowledged`, replaces the in-memory catalog with the
merged catalog and closes the `catalogReceived` channel via
`sync.Once`. -/
def onCatalogUpdate (rawCatalog : RawDoc) (st : OrgState)
    (catalogConfigs : List (String × RawDoc)) :
    OrgState × List (String × ApplyState) :=
  let baseline : List Package :=
    match jsonUnmarshalCatalog rawCatalog with
    | .ok c => c.packages
    | .error _ => []
  match decodeLoop baseline catalogConfigs with
  | .error fail => (st, [(fail.1, .error fail.2)])
  | .ok merged =>
      ({ catalog := { packages := merged }, latchOpen := true },
       catalogConfigs.map fun pc => (pc.1, .acknowledged))

/-- Iterated `onCatalogUpdate`: the org state after a sequence of
update callbacks. -/
def runUpdates (rawCatalog : RawDoc) (st : OrgState) :
    List (List (String × RawDoc)) → OrgState
  | [] => st
  | batch :: rest =>
      runUpdates rawCatalog (onCatalogUpdate rawCatalog st batch).1 rest

/-- Whether every config in a batch decodes successfully (the condition
under which `onCatalogUpdate` reaches its acknowledgement loop). -/
def batchOk (batch : List (String × RawDoc)) : Bool :=
  batch.all fun pc =>
    match pc.2 with
    | RawDoc.ok _ => true
    | RawDoc.bad _ => false

/-! ## `waitForCatalog` and `GetPackage` -/

/-- Errors returned by `GetPackage`: the wrap of a context error from
`waitForCatalog` ("context canceled while waiting for catalog: %w") or
the not-found error ("package %s version %s not found %v", which
interpolates the requested name, the requested version and the merged
catalog's package list). -/
inductive GetPackageError where
  | contextCancelled (ctxErr : String)
  | notFound (pkg version : String) (packages : List Package)
deriving Repr, DecidableEq

/-- `orgConfig.waitForCatalog` — the `select` over `ctx.Done()` and the
`catalogReceived` channel, observed at the moment the select resolves:
`ctxDone` is whether `ctx.Done()` is ready, `st.latchOpen` whether
`catalogReceived` is closed. A select only resolves when some case is
ready; when both are ready Go picks one at random, modelled by
`tiebreak`. Returns `ctx.Err()` through the `ctx.Done` case and `nil`
through the latch case. -/
def waitForCatalog (ctxDone : Bool) (st : OrgState) (tiebreak : Bool)
    (ctxErr : String) : Except String Unit :=
  if ctxDone && st.latchOpen then
    if tiebreak then .error ctxErr else .ok ()
  else if ctxDone then .error ctxErr
  else .ok ()

/-- `orgConfig.GetPackage` — wait for the catalog, then return the
first entry of the merged catalog whose `Name` and `Version` equal the
arguments, or a not-found error. -/
def getPackage (ctxDone : Bool) (tiebreak : Bool) (ctxErr : String)
    (st : OrgState) (pkg version : String) : Except GetPackageError Package :=
  match waitForCatalog ctxDone st tiebreak ctxErr with
  | .error e => .error (.contextCancelled e)
  | .ok _ =>
    match st.catalog.packages.find? (fun p => p.name == pkg && p.version == version) with
    | some p => .ok p
    | none => .error (.notFound pkg version st.catalog.packages)

/-! ## Extractor and installer (the updater's installer file) -/

/-- `datadogPackageLayerMediaType` — the OCI media type identifying a
package payload layer. -/
def datadogPackageLayerMediaType : String :=
  "application/vnd.datadog.package.layer.v1.tar+zstd"

/-- `datadogPackageMaxSize = 3 << 30` — 3 GiB. -/
def datadogPackageMaxSize : Nat := 3 <<< 30

/-- A tar entry of an uncompressed payload: a path and an uncompressed
byte size. -/
structure TarEntry where
  path : String
  size : Nat
deriving Repr, DecidableEq

/-- An OCI layer as the extractor uses it: `MediaType()` and
`Uncompressed()` (the stream, quotiented into its tar entries), each of
which can fail. -/
structure Layer where
  mediaType : Except String String
  uncompressed : Except String (List TarEntry)

/-- An OCI image handle as the extractor uses it: `Layers()`, which can
fail. -/
structure Image where
  layers : Except String (List Layer)

/-- Errors arising during `extractPackageLayers` (the Go code carries
them as wrapped `error` values; the wrap with `fmt.Errorf` preserves
identity through `%w`). -/
inductive ExtractError where
  | imageLayers (msg : String)
  | layerMediaType (msg : String)
  | layerUncompress (msg : String)
  | payloadTooLarge
deriving Repr, DecidableEq

/-- Total uncompressed byte size of a list of tar entries. -/
def totalSize (entries : List TarEntry) : Nat :=
  (entries.map TarEntry.size).sum

/-- Modelled from the spec: `extractTarArchive` (the size-bounded
decompressing tar reader) is not under `src/`; only its caller
`extractPackageLayers` is. Per the spec it streams the tar entries into
the destination and aborts with `PayloadTooLarge` as soon as the
uncompressed bytes exceed `maxSize`; since entry sizes are nonnegative,
it aborts exactly when the entries' total exceeds `maxSize`, and
otherwise writes all entries. Returns the entries written on success. -/
def extractTarArchive (entries : List TarEntry) (maxSize : Nat) :
    Except ExtractError (List TarEntry) :=
  if totalSize entries > maxSize then .error .payloadTooLarge
  else .ok entries

/-- The layer loop of `extractPackageLayers`: for each layer, read its
media type; if it equals `datadogPackageLayerMediaType`, uncompress it
and extract it into `dir` with the full `datadogPackageMaxSize` budget;
otherwise skip it. `dir` accumulates the entries written into the
destination so far. -/
def extractLayersLoop (dir : List TarEntry) :
    List Layer → Except ExtractError (List TarEntry)
  | [] => .ok dir
  | layer :: rest =>
    match layer.mediaType with
    | .error e => .error (.layerMediaType e)
    | .ok mt =>
      if mt == datadogPackageLayerMediaType then
        match layer.uncompressed with
        | .error e => .error (.layerUncompress e)
        | .ok entries =>
          match extractTarArchive entries datadogPackageMaxSize with
          | .error e => .error e
          | .ok written => extractLayersLoop (dir ++ written) rest
      else
        extractLayersLoop dir rest

/-- `extractPackageLayers(image, dir)` — enumerate the image's layers
and extract every payload layer into the destination. Returns the
entries written into the destination directory on success. -/
def extractPackageLayers (image : Image) : Except ExtractError (List TarEntry) :=
  match image.layers with
  | .error e => .error (.imageLayers e)
  | .ok ls => extractLayersLoop [] ls

/-! ## Installer operations (`installStable`, `installExperiment`) -/

deriving instance DecidableEq for Except

/-- Errors of an installer operation, by the step that produced them. -/
inductive InstallError where
  | mkdirTemp (msg : String)
  | extract (e : ExtractError)
  | getRepository (msg : String)
  | repositoryOp (msg : String)
deriving Repr, DecidableEq

/-- Everything observable about one `installStable` /
`installExperiment` run: whether the staging directory was created,
whether the deferred `os.RemoveAll(tmpDir)` ran (it runs on every
return after a successful `os.MkdirTemp`; on the success path the
directory has already been renamed into the repository, so removing it
is a no-op), whether a repository transition (`Create` /
`SetExperiment`) was invoked, and the returned error. -/
structure InstallOutcome where
  stagingCreated : Bool
  stagingRemoveAllRan : Bool
  transitionInvoked : Bool
  result : Except InstallError Unit
deriving Repr, DecidableEq

/-- `installer.installStable` — create a staging directory with
`os.MkdirTemp("", "")` (whose outcome is `mkdirTempResult`), extract
the package layers into it, then call `repositories.Create` (whose
outcome is `createResult`; the repository store is not part of this
file). The deferred `os.RemoveAll` removes staging on every path after
creation. -/
def installStable (mkdirTempResult : Except String Unit) (image : Image)
    (createResult : Except String Unit) : InstallOutcome :=
  match mkdirTempResult with
  | .error e =>
      { stagingCreated := false, stagingRemoveAllRan := false,
        transitionInvoked := false, result := .error (.mkdirTemp e) }
  | .ok _ =>
    match extractPackageLayers image with
    | .error e =>
        { stagingCreated := true, stagingRemoveAllRan := true,
          transitionInvoked := false, result := .error (.extract e) }
    | .ok _ =>
        { stagingCreated := true, stagingRemoveAllRan := true,
          transitionInvoked := true,
          result := createResult.mapError InstallError.repositoryOp }

/-- `installer.installExperiment` — like `installStable` but looks up
the package's repository (`repositories.Get`, outcome `getResult`) and
calls `SetExperiment` (outcome `setExperimentResult`). -/
def installExperiment (mkdirTempResult : Except String Unit) (image : Image)
    (getResult : Except String Unit)
    (setExperimentResult : Except String Unit) : InstallOutcome :=
  match mkdirTempResult with
  | .error e =>
      { stagingCreated := false, stagingRemoveAllRan := false,
        transitionInvoked := false, result := .error (.mkdirTemp e) }
  | .ok _ =>
    match extractPackageLayers image with
    | .error e =>
        { stagingCreated := true, stagingRemoveAllRan := true,
          transitionInvoked := false, result := .error (.extract e) }
    | .ok _ =>
      match getResult with
      | .error e =>
          { stagingCreated := true, stagingRemoveAllRan := true,
            transitionInvoked := false, result := .error (.getRepository e) }
      | .ok _ =>
          { stagingCreated := true, stagingRemoveAllRan := true,
            transitionInvoked := true,
            result := setExperimentResult.mapError InstallError.repositoryOp }

/-! ## Staging directory location -/

/-- The `dir` argument both `installStable` and `installExperiment`
pass to `os.MkdirTemp`: the empty string. -/
def stagingMkdirTempDir : String := ""

/-- A host as the staging-location question sees it: the system
temporary directory (`os.TempDir()`), the repository root, and the
filesystem each path lives on. -/
structure Host where
  tmpDir : String
  repositoriesRoot : String
  filesystemOf : String → Nat

/-- Where `os.MkdirTemp(stagingMkdirTempDir, "")` creates the staging
directory: per Go semantics, an empty `dir` means the system temporary
directory. -/
def stagingParent (h : Host) : String :=
  if stagingMkdirTempDir = "" then h.tmpDir else stagingMkdirTempDir

/-- The staging directory is colocated with the repository root: both
live on the same filesystem, so the final rename never crosses
filesystems. -/
def stagingColocated (h : Host) : Prop :=
  h.filesystemOf (stagingParent h) = h.filesystemOf h.repositoriesRoot

instance (h : Host) : Decidable (stagingColocated h) := by
  unfold stagingColocated
  infer_instance

/-! ## Spec-side descriptions used to state the claims -/

/-- The packages a raw document contributes when it decodes
successfully. -/
def decodedPackages : RawDoc → List Package
  | .ok c => c.packages
  | .bad _ => []

/-- The tar entries a layer contributes to the destination: its
uncompressed entries when it is a readable payload layer, nothing
otherwise. -/
def layerPayload (l : Layer) : List TarEntry :=
  match l.mediaType, l.uncompressed with
  | .ok mt, .ok entries =>
      if mt == datadogPackageLayerMediaType then entries else []
  | _, _ => []

/-- A layer the extractor handles without error: its media type is
readable, and if it is a payload layer then its stream is readable and
its uncompressed size is within the per-layer budget. -/
def layerFine (l : Layer) : Prop :=
  ∃ mt, l.mediaType = .ok mt ∧
    (mt = datadogPackageLayerMediaType →
      ∃ entries, l.uncompressed = .ok entries ∧
        totalSize entries ≤ datadogPackageMaxSize)

/-! ## Helper lemmas about `decodeLoop` and `onCatalogUpdate` -/

theorem batchOk_cons_ok (path : String) (c : Catalog)
    (tl : List (String × RawDoc)) :
    batchOk ((path, RawDoc.ok c) :: tl) = batchOk tl := by
  simp [batchOk, List.all_cons]

theorem decodeLoop_all_ok (batch : List (String × RawDoc)) :
    ∀ merged : List Package, batchOk batch = true →
      decodeLoop merged batch =
        .ok (merged ++ (batch.map fun pc => decodedPackages pc.2).flatten) := by
  induction batch with
  | nil => intro merged _; simp [decodeLoop]
  | cons hd tl ih =>
    intro merged h
    obtain ⟨path, raw⟩ := hd
    cases raw with
    | ok c =>
      rw [batchOk_cons_ok] at h
      simp only [decodeLoop, jsonUnmarshalCatalog]
      rw [ih (merged ++ c.packages) h]
      simp [decodedPackages, List.append_assoc]
    | bad msg =>
      simp [batchOk, List.all_cons] at h

theorem decodeLoop_first_bad (good : List (String × RawDoc)) :
    ∀ merged : List Package, batchOk good = true →
      ∀ (path msg : String) (rest : List (String × RawDoc)),
        decodeLoop merged (good ++ (path, RawDoc.bad msg) :: rest) =
          .error (path, msg) := by
  induction good with
  | nil => intro merged _ path msg rest; simp [decodeLoop, jsonUnmarshalCatalog]
  | cons hd tl ih =>
    intro merged h path msg rest
    obtain ⟨p, raw⟩ := hd
    cases raw with
    | ok c =>
      rw [batchOk_cons_ok] at h
      simpa [decodeLoop, jsonUnmarshalCatalog] using
        ih (merged ++ c.packages) h path msg rest
    | bad m => simp [batchOk, List.all_cons] at h

theorem decodeLoop_err_of_not_ok (batch : List (String × RawDoc)) :
    ∀ merged : List Package, batchOk batch = false →
      ∃ fail, decodeLoop merged batch = .error fail := by
  induction batch with
  | nil => intro merged h; simp [batchOk] at h
  | cons hd tl ih =>
    intro merged h
    obtain ⟨path, raw⟩ := hd
    cases raw with
    | ok c =>
      rw [batchOk_cons_ok] at h
      obtain ⟨fail, hf⟩ := ih (merged ++ c.packages) h
      exact ⟨fail, by simpa [decodeLoop, jsonUnmarshalCatalog] using hf⟩
    | bad msg =>
      exact ⟨(path, msg), by simp [decodeLoop, jsonUnmarshalCatalog]⟩

theorem onCatalogUpdate_state_of_err (rawCatalog : RawDoc) (st : OrgState)
    (batch : List (String × RawDoc)) (h : batchOk batch = false) :
    (onCatalogUpdate rawCatalog st batch).1 = st := by
  unfold onCatalogUpdate
  obtain ⟨fail, hf⟩ :=
    decodeLoop_err_of_not_ok batch
      (match jsonUnmarshalCatalog rawCatalog with
       | .ok c => c.packages
       | .error _ => []) h
  simp [hf]

theorem onCatalogUpdate_latch_of_ok (rawCatalog : RawDoc) (st : OrgState)
    (batch : List (String × RawDoc)) (h : batchOk batch = true) :
    (onCatalogUpdate rawCatalog st batch).1.latchOpen = true := by
  simp only [onCatalogUpdate, decodeLoop_all_ok batch _ h]

theorem onCatalogUpdate_latch_mono (rawCatalog : RawDoc) (st : OrgState)
    (batch : List (String × RawDoc)) (h : st.latchOpen = true) :
    (onCatalogUpdate rawCatalog st batch).1.latchOpen = true := by
  cases hb : batchOk batch with
  | true => exact onCatalogUpdate_latch_of_ok rawCatalog st batch hb
  | false => rw [onCatalogUpdate_state_of_err rawCatalog st batch hb]; exact h

theorem runUpdates_latch_mono (rawCatalog : RawDoc)
    (batches : List (List (String × RawDoc))) :
    ∀ st : OrgState, st.latchOpen = true →
      (runUpdates rawCatalog st batches).latchOpen = true := by
  induction batches with
  | nil => intro st h; exact h
  | cons b bs ih =>
    intro st h
    exact ih _ (onCatalogUpdate_latch_mono rawCatalog st b h)

theorem runUpdates_latch_eq (rawCatalog : RawDoc)
    (batches : List (List (String × RawDoc))) :
    ∀ st : OrgState,
      (runUpdates rawCatalog st batches).latchOpen =
        (st.latchOpen || batches.any batchOk) := by
  induction batches with
  | nil => intro st; simp [runUpdates]
  | cons b bs ih =>
    intro st
    cases hb : batchOk b with
    | true =>
      have h1 : (onCatalogUpdate rawCatalog st b).1.latchOpen = true :=
        onCatalogUpdate_latch_of_ok rawCatalog st b hb
      simp [runUpdates, List.any_cons, hb,
        runUpdates_latch_mono rawCatalog bs _ h1]
    | false =>
      simp [runUpdates, List.any_cons, hb,
        onCatalogUpdate_state_of_err rawCatalog st b hb, ih]

/-! ## Helper lemmas about `List.find?` and the extractor -/

theorem find?_eq_some_first {α : Type _} (p : α → Bool) (l : List α) (a : α)
    (h : l.find? p = some a) :
    ∃ i : Nat, l[i]? = some a ∧ p a = true ∧
      ∀ j : Nat, j < i → ∀ b, l[j]? = some b → p b = false := by
  induction l with
  | nil => simp [List.find?] at h
  | cons c t ih =>
    cases hp : p c with
    | true =>
      rw [List.find?_cons_of_pos _ hp] at h
      obtain rfl : c = a := by injection h
      refine ⟨0, by simp, hp, ?_⟩
      intro j hj
      exact absurd hj (Nat.not_lt_zero j)
    | false =>
      rw [List.find?_cons_of_neg _ (by simp [hp])] at h
      obtain ⟨i, h1, h2, h3⟩ := ih h
      refine ⟨i + 1, by simpa using h1, h2, ?_⟩
      intro j hj b hb
      cases j with
      | zero =>
        obtain rfl : c = b := by simpa using hb
        exact hp
      | succ k => exact h3 k (by omega) b (by simpa using hb)

theorem totalSize_append (l₁ l₂ : List TarEntry) :
    totalSize (l₁ ++ l₂) = totalSize l₁ + totalSize l₂ := by
  simp [totalSize]

theorem layerPayload_of_not_payload (l : Layer) (mt : String)
    (hmt : l.mediaType = .ok mt) (hne : mt ≠ datadogPackageLayerMediaType) :
    layerPayload l = [] := by
  unfold layerPayload
  rw [hmt]
  cases l.uncompressed with
  | ok entries => simp [hne]
  | error e => rfl

theorem extractLayersLoop_skip (dir : List TarEntry) (l : Layer)
    (rest : List Layer) (mt : String) (hmt : l.mediaType = .ok mt)
    (hne : mt ≠ datadogPackageLayerMediaType) :
    extractLayersLoop dir (l :: rest) = extractLayersLoop dir rest := by
  conv_lhs => rw [extractLayersLoop]
  rw [hmt]
  simp [hne]

theorem extractLayersLoop_fine (ls : List Layer) :
    ∀ dir : List TarEntry, (∀ l ∈ ls, layerFine l) →
      extractLayersLoop dir ls = .ok (dir ++ (ls.map layerPayload).flatten) := by
  induction ls with
  | nil => intro dir _; simp [extractLayersLoop]
  | cons l rest ih =>
    intro dir h
    obtain ⟨mt, hmt, hp⟩ := h l (List.mem_cons_self l rest)
    have hrest : ∀ l' ∈ rest, layerFine l' :=
      fun l' hl' => h l' (List.mem_cons_of_mem l hl')
    by_cases he : mt = datadogPackageLayerMediaType
    · obtain ⟨entries, hu, hsize⟩ := hp he
      have harch : extractTarArchive entries datadogPackageMaxSize = .ok entries := by
        unfold extractTarArchive
        simp [Nat.not_lt_of_le hsize]
      have hpayload : layerPayload l = entries := by
        unfold layerPayload
        rw [hmt, hu]
        simp [he]
      unfold extractLayersLoop
      rw [hmt]
      simp only [he, beq_self_eq_true, if_true, hu, harch]
      rw [ih (dir ++ entries) hrest]
      simp [hpayload, List.append_assoc]
    · rw [extractLayersLoop_skip dir l rest mt hmt he, ih dir hrest]
      simp [layerPayload_of_not_payload l mt hmt he]

theorem extractLayersLoop_too_large (dir : List TarEntry)
    (entries : List TarEntry) (rest : List Layer)
    (h : totalSize entries > datadogPackageMaxSize) :
    extractLayersLoop dir
      (({ mediaType := .ok datadogPackageLayerMediaType,
          uncompressed := .ok entries } : Layer) :: rest) =
      .error .payloadTooLarge := by
  unfold extractLayersLoop extractTarArchive
  simp [h]

theorem totalSize_flatten (xss : List (List TarEntry)) :
    totalSize xss.flatten = (xss.map totalSize).sum := by
  induction xss with
  | nil => simp [totalSize]
  | cons xs rest ih => simp [List.flatten_cons, totalSize_append, ih]

/-! ## Claim theorems: catalog client -/

/-- Claim C2: `GetPackage` blocks on the catalog latch (the select can
only resolve once the latch is open or the context is done). If the
context is cancelled while the latch is still closed, it fails with
the context-cancelled error. Once the latch is open (context live) it
returns the first entry of the merged catalog whose name and version
equal the arguments; if an entry matches the call succeeds, and if
none matches it fails with the not-found error. -/
theorem getPackage_spec (st : OrgState) (pkg version : String)
    (tiebreak : Bool) (ctxErr : String) :
    (st.latchOpen = false →
      getPackage true tiebreak ctxErr st pkg version =
        .error (.contextCancelled ctxErr)) ∧
    (st.latchOpen = true →
      (∀ p, getPackage false tiebreak ctxErr st pkg version = .ok p →
        ∃ i : Nat, st.catalog.packages[i]? = some p ∧
          p.name = pkg ∧ p.version = version ∧
          ∀ j : Nat, j < i → ∀ q, st.catalog.packages[j]? = some q →
            ¬(q.name = pkg ∧ q.version = version)) ∧
      ((∃ q ∈ st.catalog.packages, q.name = pkg ∧ q.version = version) →
        ∃ p, getPackage false tiebreak ctxErr st pkg version = .ok p) ∧
      ((∀ q ∈ st.catalog.packages, ¬(q.name = pkg ∧ q.version = version)) →
        getPackage false tiebreak ctxErr st pkg version =
          .error (.notFound pkg version st.catalog.packages))) := by
  constructor
  · intro hlatch
    unfold getPackage waitForCatalog
    simp [hlatch]
  · intro hlatch
    have hwait : waitForCatalog false st tiebreak ctxErr = .ok () := by
      unfold waitForCatalog
      simp
    refine ⟨?_, ?_, ?_⟩
    · intro p hp
      unfold getPackage at hp
      rw [hwait] at hp
      cases hfind : st.catalog.packages.find?
          (fun p => p.name == pkg && p.version == version) with
      | none => rw [hfind] at hp; exact absurd hp (by simp)
      | some p' =>
        rw [hfind] at hp
        obtain rfl : p' = p := by injection hp
        obtain ⟨i, h1, h2, h3⟩ := find?_eq_some_first _ _ _ hfind
        refine ⟨i, h1, ?_, ?_, ?_⟩
        · exact by simpa using (Bool.and_eq_true _ _ |>.mp h2).1
        · exact by simpa using (Bool.and_eq_true _ _ |>.mp h2).2
        · intro j hj q hq hcontra
          have := h3 j hj q hq
          simp [hcontra.1, hcontra.2] at this
    · intro ⟨q, hq, hname, hver⟩
      unfold getPackage
      rw [hwait]
      cases hfind : st.catalog.packages.find?
          (fun p => p.name == pkg && p.version == version) with
      | none =>
        have := List.find?_eq_none.mp hfind q hq
        simp [hname, hver] at this
      | some p => exact ⟨p, rfl⟩
    · intro hnone
      unfold getPackage
      rw [hwait]
      cases hfind : st.catalog.packages.find?
          (fun p => p.name == pkg && p.version == version) with
      | none => rfl
      | some p =>
        have hmem := List.mem_of_find?_eq_some hfind
        have hpred := List.find?_some hfind
        have h1 : p.name = pkg := by
          simpa using (Bool.and_eq_true _ _ |>.mp hpred).1
        have h2 : p.version = version := by
          simpa using (Bool.and_eq_true _ _ |>.mp hpred).2
        exact absurd ⟨h1, h2⟩ (hnone p hmem)

/-- Witness for C2 at a concrete catalog: cancellation before the
latch opens yields the context-cancelled error, and with the latch
open the matching entry (the first of two duplicates) is returned. -/
theorem getPackage_spec_witness :
    (getPackage true false "context canceled"
        ⟨⟨[]⟩, false⟩ "datadog-agent" "7.50.0" =
      .error (.contextCancelled "context canceled")) ∧
    (∃ i : Nat,
      ([⟨"datadog-agent", "7.50.0", "abc", "oci://a", 1024, "linux", "amd64"⟩] :
        List Package)[i]? =
        some ⟨"datadog-agent", "7.50.0", "abc", "oci://a", 1024, "linux", "amd64"⟩) := by
  constructor
  · exact (getPackage_spec ⟨⟨[]⟩, false⟩ "datadog-agent" "7.50.0" false
      "context canceled").1 rfl
  · obtain ⟨i, h1, -⟩ :=
      ((getPackage_spec
          ⟨⟨[⟨"datadog-agent", "7.50.0", "abc", "oci://a", 1024, "linux", "amd64"⟩]⟩,
            true⟩
          "datadog-agent" "7.50.0" false "context canceled").2 rfl).1
        ⟨"datadog-agent", "7.50.0", "abc", "oci://a", 1024, "linux", "amd64"⟩
        (by decide)
    exact ⟨i, h1⟩

/-- Claim C9: `GetPackage` selects solely by equality of name and
version — rewriting every catalog entry by any function that preserves
the name and version fields (for instance changing Platform or Arch
arbitrarily, even to values that do not match the host) commutes with
the whole lookup: the same position is selected, success and failure
are unchanged, and only the entry payload is rewritten. -/
theorem getPackage_selects_by_name_version_only
    (f : Package → Package)
    (hname : ∀ p, (f p).name = p.name)
    (hver : ∀ p, (f p).version = p.version)
    (ctxDone tiebreak : Bool) (ctxErr : String)
    (packages : List Package) (latch : Bool) (pkg version : String) :
    getPackage ctxDone tiebreak ctxErr ⟨⟨packages.map f⟩, latch⟩ pkg version =
      match getPackage ctxDone tiebreak ctxErr ⟨⟨packages⟩, latch⟩ pkg version with
      | .ok p => .ok (f p)
      | .error (.contextCancelled e) => .error (.contextCancelled e)
      | .error (.notFound a b pkgs) => .error (.notFound a b (pkgs.map f)) := by
  unfold getPackage
  have hcomp : ((fun p : Package => p.name == pkg && p.version == version) ∘ f) =
      fun p : Package => p.name == pkg && p.version == version := by
    funext p
    simp [Function.comp, hname, hver]
  cases hwait : waitForCatalog ctxDone ⟨⟨packages⟩, latch⟩ tiebreak ctxErr with
  | error e =>
    have hwait' : waitForCatalog ctxDone ⟨⟨packages.map f⟩, latch⟩ tiebreak ctxErr =
        .error e := hwait
    rw [hwait']
  | ok u =>
    have hwait' : waitForCatalog ctxDone ⟨⟨packages.map f⟩, latch⟩ tiebreak ctxErr =
        .ok u := hwait
    rw [hwait']
    simp only [List.find?_map, hcomp]
    cases packages.find? (fun p => p.name == pkg && p.version == version) with
    | some p => rfl
    | none => rfl

/-- Witness for C9: flipping Platform and Arch to values that do not
match any host leaves the selected entry's name and version unchanged
(only the rewritten fields differ). -/
theorem getPackage_selects_by_name_version_only_witness :
    getPackage false false "ctx"
        ⟨⟨[⟨"datadog-agent", "7.50.0", "abc", "oci://a", 1024, "no-such-os",
            "no-such-arch"⟩]⟩, true⟩
        "datadog-agent" "7.50.0" =
      .ok ⟨"datadog-agent", "7.50.0", "abc", "oci://a", 1024, "no-such-os",
        "no-such-arch"⟩ := by
  have h := getPackage_selects_by_name_version_only
    (fun p => { p with platform := "no-such-os", arch := "no-such-arch" })
    (fun p => rfl) (fun p => rfl) false false "ctx"
    [⟨"datadog-agent", "7.50.0", "abc", "oci://a", 1024, "linux", "amd64"⟩]
    true "datadog-agent" "7.50.0"
  simpa using h

/-- Claim C6: the catalog-received latch opens exactly once and only
at the first successful catalog acceptance: a batch with a decode
failure leaves the whole state (latch included) unchanged, a
successful batch leaves the latch open, an open latch stays open
through any further update, after any sequence of updates the latch is
open exactly when it was already open or some batch succeeded, and a
late waiter (latch open, context live) returns immediately. -/
theorem catalog_latch_once
    (rawCatalog : RawDoc) (st : OrgState) (batch : List (String × RawDoc))
    (batches : List (List (String × RawDoc))) (tiebreak : Bool)
    (ctxErr : String) :
    (batchOk batch = false → (onCatalogUpdate rawCatalog st batch).1 = st) ∧
    (batchOk batch = true →
      (onCatalogUpdate rawCatalog st batch).1.latchOpen = true) ∧
    (st.latchOpen = true →
      (onCatalogUpdate rawCatalog st batch).1.latchOpen = true) ∧
    ((runUpdates rawCatalog st batches).latchOpen =
      (st.latchOpen || batches.any batchOk)) ∧
    (st.latchOpen = true →
      waitForCatalog false st tiebreak ctxErr = .ok ()) := by
  refine ⟨onCatalogUpdate_state_of_err rawCatalog st batch,
    onCatalogUpdate_latch_of_ok rawCatalog st batch,
    onCatalogUpdate_latch_mono rawCatalog st batch,
    runUpdates_latch_eq rawCatalog batches st, ?_⟩
  intro _
  unfold waitForCatalog
  simp

/-- Witness for C6 at concrete batches: a failing batch leaves the
closed latch closed, catalogs and all; a successful batch opens it; an
open latch survives a failing batch; a run with a failure then a
success ends open; and a late waiter returns nil. -/
theorem catalog_latch_once_witness :
    ((onCatalogUpdate (RawDoc.ok ⟨[]⟩) ⟨⟨[]⟩, false⟩
        [("cfg", RawDoc.bad "bad json")]).1 = ⟨⟨[]⟩, false⟩) ∧
    ((onCatalogUpdate (RawDoc.ok ⟨[]⟩) ⟨⟨[]⟩, false⟩ []).1.latchOpen = true) ∧
    ((onCatalogUpdate (RawDoc.ok ⟨[]⟩) ⟨⟨[]⟩, true⟩
        [("cfg", RawDoc.bad "bad json")]).1.latchOpen = true) ∧
    ((runUpdates (RawDoc.ok ⟨[]⟩) ⟨⟨[]⟩, false⟩
        [[("cfg", RawDoc.bad "bad json")], []]).latchOpen = true) ∧
    (waitForCatalog false ⟨⟨[]⟩, true⟩ true "ctx" = .ok ()) := by
  refine ⟨?_, ?_, ?_, ?_, ?_⟩
  · exact (catalog_latch_once (RawDoc.ok ⟨[]⟩) ⟨⟨[]⟩, false⟩
      [("cfg", RawDoc.bad "bad json")] [] true "ctx").1 (by decide)
  · exact (catalog_latch_once (RawDoc.ok ⟨[]⟩) ⟨⟨[]⟩, false⟩ [] [] true
      "ctx").2.1 (by decide)
  · exact (catalog_latch_once (RawDoc.ok ⟨[]⟩) ⟨⟨[]⟩, true⟩
      [("cfg", RawDoc.bad "bad json")] [] true "ctx").2.2.1 rfl
  · rw [(catalog_latch_once (RawDoc.ok ⟨[]⟩) ⟨⟨[]⟩, false⟩ []
      [[("cfg", RawDoc.bad "bad json")], []] true "ctx").2.2.2.1]
    decide
  · exact (catalog_latch_once (RawDoc.ok ⟨[]⟩) ⟨⟨[]⟩, true⟩ [] [] true
      "ctx").2.2.2.2 rfl

/-- Claim C7: when every received config decodes, the in-memory
catalog is replaced — independently of its previous contents — by the
baseline catalog's packages followed by the concatenation of the
received configs' packages in iteration order of the received map. -/
theorem catalog_merge_order
    (rawCatalog : RawDoc) (base : Catalog) (st : OrgState)
    (batch : List (String × RawDoc))
    (hbase : jsonUnmarshalCatalog rawCatalog = .ok base)
    (hok : batchOk batch = true) :
    (onCatalogUpdate rawCatalog st batch).1.catalog.packages =
      base.packages ++ (batch.map fun pc => decodedPackages pc.2).flatten := by
  unfold onCatalogUpdate
  rw [hbase]
  simp only [decodeLoop_all_ok batch _ hok]

/-- Witness for C7: with baseline `[agent 7.50.0]` and two received
configs carrying `[agent 7.51.0]` and `[agent 7.52.0]`, the merged
catalog is baseline first, then the remote entries in delivery
order. -/
theorem catalog_merge_order_witness :
    (onCatalogUpdate
        (RawDoc.ok ⟨[⟨"datadog-agent", "7.50.0", "a", "u", 1, "linux", "amd64"⟩]⟩)
        ⟨⟨[⟨"stale", "0", "s", "u", 0, "linux", "amd64"⟩]⟩, false⟩
        [("c1", RawDoc.ok ⟨[⟨"datadog-agent", "7.51.0", "b", "u", 2, "linux", "amd64"⟩]⟩),
         ("c2", RawDoc.ok ⟨[⟨"datadog-agent", "7.52.0", "c", "u", 3, "linux", "amd64"⟩]⟩)]
      ).1.catalog.packages =
      [⟨"datadog-agent", "7.50.0", "a", "u", 1, "linux", "amd64"⟩,
       ⟨"datadog-agent", "7.51.0", "b", "u", 2, "linux", "amd64"⟩,
       ⟨"datadog-agent", "7.52.0", "c", "u", 3, "linux", "amd64"⟩] := by
  rw [catalog_merge_order
    (RawDoc.ok ⟨[⟨"datadog-agent", "7.50.0", "a", "u", 1, "linux", "amd64"⟩]⟩)
    ⟨[⟨"datadog-agent", "7.50.0", "a", "u", 1, "linux", "amd64"⟩]⟩
    ⟨⟨[⟨"stale", "0", "s", "u", 0, "linux", "amd64"⟩]⟩, false⟩
    [("c1", RawDoc.ok ⟨[⟨"datadog-agent", "7.51.0", "b", "u", 2, "linux", "amd64"⟩]⟩),
     ("c2", RawDoc.ok ⟨[⟨"datadog-agent", "7.52.0", "c", "u", 3, "linux", "amd64"⟩]⟩)]
    rfl (by decide)]
  decide

/-- Claim C1 fails on the code: with two delivered configs of which
only the second fails to decode, `onCatalogUpdate` acknowledges the
failing config and returns, so the first delivered config ID receives
zero replies instead of exactly one. -/
theorem ack_exactly_once_counterexample :
    ("cfg-a" ∈ ([("cfg-a", RawDoc.ok ⟨[]⟩),
        ("cfg-b", RawDoc.bad "invalid character")].map Prod.fst)) ∧
    ((onCatalogUpdate (RawDoc.ok ⟨[]⟩) ⟨⟨[]⟩, false⟩
        [("cfg-a", RawDoc.ok ⟨[]⟩),
         ("cfg-b", RawDoc.bad "invalid character")]).2.countP
      (fun a => a.1 == "cfg-a") = 0) := by
  decide

/-- Claim C1 (amended): when every delivered config decodes, each
delivered config ID receives exactly one reply, `Acknowledged`, in
delivery order; when some config fails to decode, only the first
failing config receives a reply — `Error` with the decode error
message — the other delivered config IDs receive no reply, and the
state (catalog and latch) is left unchanged. -/
theorem ack_replies (rawCatalog : RawDoc) (st : OrgState) :
    (∀ batch, batchOk batch = true →
      (onCatalogUpdate rawCatalog st batch).2 =
        batch.map fun pc => (pc.1, ApplyState.acknowledged)) ∧
    (∀ (good : List (String × RawDoc)) (path msg : String)
        (rest : List (String × RawDoc)), batchOk good = true →
      (onCatalogUpdate rawCatalog st
          (good ++ (path, RawDoc.bad msg) :: rest)).2 =
        [(path, ApplyState.error msg)] ∧
      (onCatalogUpdate rawCatalog st
          (good ++ (path, RawDoc.bad msg) :: rest)).1 = st) := by
  constructor
  · intro batch hok
    unfold onCatalogUpdate
    simp only [decodeLoop_all_ok batch _ hok]
  · intro good path msg rest hgood
    unfold onCatalogUpdate
    simp only [decodeLoop_first_bad good _ hgood path msg rest]
    constructor <;> trivial

/-- Witness for C1 (amended): an all-good batch of two configs is
acknowledged config by config; a batch whose second config is bad
yields the single Error reply and no state change. -/
theorem ack_replies_witness :
    ((onCatalogUpdate (RawDoc.ok ⟨[]⟩) ⟨⟨[]⟩, false⟩
        [("cfg-a", RawDoc.ok ⟨[]⟩), ("cfg-b", RawDoc.ok ⟨[]⟩)]).2 =
      [("cfg-a", ApplyState.acknowledged), ("cfg-b", ApplyState.acknowledged)]) ∧
    ((onCatalogUpdate (RawDoc.ok ⟨[]⟩) ⟨⟨[]⟩, false⟩
        [("cfg-a", RawDoc.ok ⟨[]⟩),
         ("cfg-b", RawDoc.bad "invalid character")]).2 =
      [("cfg-b", ApplyState.error "invalid character")]) := by
  constructor
  · exact (ack_replies (RawDoc.ok ⟨[]⟩) ⟨⟨[]⟩, false⟩).1
      [("cfg-a", RawDoc.ok ⟨[]⟩), ("cfg-b", RawDoc.ok ⟨[]⟩)] (by decide)
  · exact ((ack_replies (RawDoc.ok ⟨[]⟩) ⟨⟨[]⟩, false⟩).2
      [("cfg-a", RawDoc.ok ⟨[]⟩)] "cfg-b" "invalid character" [] (by decide)).1

/-! ## Claim theorems: extractor -/

/-- Claim C8: extraction processes exactly the layers whose media type
equals the package payload media type: a layer with any other media
type is skipped outright; when every layer is readable and every
payload layer is within budget, the entries written are exactly the
concatenation of the payload layers' entries (an empty payload
contributes nothing); and an image all of whose layers are non-payload
extracts successfully as a no-op. -/
theorem extract_selects_payload_layers :
    (∀ (dir : List TarEntry) (l : Layer) (rest : List Layer) (mt : String),
      l.mediaType = .ok mt → mt ≠ datadogPackageLayerMediaType →
      extractLayersLoop dir (l :: rest) = extractLayersLoop dir rest) ∧
    (∀ (image : Image) (ls : List Layer), image.layers = .ok ls →
      (∀ l ∈ ls, layerFine l) →
      extractPackageLayers image = .ok ((ls.map layerPayload).flatten)) ∧
    (∀ (image : Image) (ls : List Layer), image.layers = .ok ls →
      (∀ l ∈ ls, ∃ mt, l.mediaType = .ok mt ∧ mt ≠ datadogPackageLayerMediaType) →
      extractPackageLayers image = .ok []) := by
  refine ⟨extractLayersLoop_skip, ?_, ?_⟩
  · intro image ls hls hfine
    unfold extractPackageLayers
    rw [hls]
    simpa using extractLayersLoop_fine ls [] hfine
  · intro image ls hls hnp
    unfold extractPackageLayers
    rw [hls]
    have hfine : ∀ l ∈ ls, layerFine l := by
      intro l hl
      obtain ⟨mt, hmt, hne⟩ := hnp l hl
      exact ⟨mt, hmt, fun he => absurd he hne⟩
    show extractLayersLoop [] ls = Except.ok []
    rw [extractLayersLoop_fine ls [] hfine]
    have hnil : (ls.map layerPayload).flatten = [] := by
      rw [List.flatten_eq_nil_iff]
      intro xs hxs
      obtain ⟨l, hl, rfl⟩ := List.mem_map.mp hxs
      obtain ⟨mt, hmt, hne⟩ := hnp l hl
      exact layerPayload_of_not_payload l mt hmt hne
    rw [hnil]
    rfl

/-- Witness for C8: an image with a config layer (skipped), an empty
payload layer and a one-file payload layer extracts exactly the
payload entries; an image with only non-payload layers extracts to
nothing. -/
theorem extract_selects_payload_layers_witness :
    (extractLayersLoop []
        (({ mediaType := .ok "application/vnd.oci.image.config.v1+json",
            uncompressed := .error "not a tar" } : Layer) ::
          [{ mediaType := .ok datadogPackageLayerMediaType,
             uncompressed := .ok [⟨"bin/agent", 4⟩] }]) =
      extractLayersLoop []
        [{ mediaType := .ok datadogPackageLayerMediaType,
           uncompressed := .ok [⟨"bin/agent", 4⟩] }]) ∧
    (extractPackageLayers
        ⟨.ok [{ mediaType := .ok datadogPackageLayerMediaType,
                uncompressed := .ok [] },
              { mediaType := .ok datadogPackageLayerMediaType,
                uncompressed := .ok [⟨"bin/agent", 4⟩] }]⟩ =
      .ok [⟨"bin/agent", 4⟩]) ∧
    (extractPackageLayers
        ⟨.ok [{ mediaType := .ok "application/vnd.oci.image.config.v1+json",
                uncompressed := .error "not a tar" }]⟩ =
      .ok []) := by
  refine ⟨?_, ?_, ?_⟩
  · exact extract_selects_payload_layers.1 []
      { mediaType := .ok "application/vnd.oci.image.config.v1+json",
        uncompressed := .error "not a tar" }
      [{ mediaType := .ok datadogPackageLayerMediaType,
         uncompressed := .ok [⟨"bin/agent", 4⟩] }]
      "application/vnd.oci.image.config.v1+json" rfl (by decide)
  · have h := extract_selects_payload_layers.2.1
      ⟨.ok [{ mediaType := .ok datadogPackageLayerMediaType,
              uncompressed := .ok [] },
            { mediaType := .ok datadogPackageLayerMediaType,
              uncompressed := .ok [⟨"bin/agent", 4⟩] }]⟩
      [{ mediaType := .ok datadogPackageLayerMediaType,
         uncompressed := .ok [] },
       { mediaType := .ok datadogPackageLayerMediaType,
         uncompressed := .ok [⟨"bin/agent", 4⟩] }]
      rfl
      (by
        intro l hl
        simp only [List.mem_cons, List.not_mem_nil, or_false] at hl
        rcases hl with rfl | rfl
        · exact ⟨datadogPackageLayerMediaType, rfl,
            fun _ => ⟨[], rfl, by simp [totalSize]⟩⟩
        · exact ⟨datadogPackageLayerMediaType, rfl,
            fun _ => ⟨[⟨"bin/agent", 4⟩], rfl, by decide⟩⟩)
    simpa [layerPayload] using h
  · exact extract_selects_payload_layers.2.2
      ⟨.ok [{ mediaType := .ok "application/vnd.oci.image.config.v1+json",
              uncompressed := .error "not a tar" }]⟩
      [{ mediaType := .ok "application/vnd.oci.image.config.v1+json",
         uncompressed := .error "not a tar" }]
      rfl
      (by
        intro l hl
        simp only [List.mem_cons, List.not_mem_nil, or_false] at hl
        subst hl
        exact ⟨"application/vnd.oci.image.config.v1+json", rfl, by decide⟩)

/-- Claim C10: the 3 GiB budget is applied independently to each
payload layer — `extractPackageLayers` passes the full
`datadogPackageMaxSize` to the extraction of every payload layer
regardless of bytes already extracted, so any image whose payload
layers are each individually within 3 GiB extracts successfully with
the per-layer totals simply adding up; in particular an image with two
payload layers of exactly 3 GiB each succeeds with 2 × 3 GiB total
bytes written to the staging directory. -/
theorem extract_budget_per_layer :
    (∀ (image : Image) (ls : List Layer), image.layers = .ok ls →
      (∀ l ∈ ls, layerFine l) →
      ∃ written, extractPackageLayers image = .ok written ∧
        totalSize written = (ls.map fun l => totalSize (layerPayload l)).sum) ∧
    (extractPackageLayers
        ⟨.ok [{ mediaType := .ok datadogPackageLayerMediaType,
                uncompressed := .ok [⟨"huge-a.bin", datadogPackageMaxSize⟩] },
              { mediaType := .ok datadogPackageLayerMediaType,
                uncompressed := .ok [⟨"huge-b.bin", datadogPackageMaxSize⟩] }]⟩ =
      .ok [⟨"huge-a.bin", datadogPackageMaxSize⟩,
           ⟨"huge-b.bin", datadogPackageMaxSize⟩]) ∧
    (totalSize [⟨"huge-a.bin", datadogPackageMaxSize⟩,
        ⟨"huge-b.bin", datadogPackageMaxSize⟩] = 2 * datadogPackageMaxSize) ∧
    (2 * datadogPackageMaxSize > datadogPackageMaxSize) := by
  refine ⟨?_, ?_, ?_, ?_⟩
  · intro image ls hls hfine
    refine ⟨(ls.map layerPayload).flatten, ?_, ?_⟩
    · unfold extractPackageLayers
      rw [hls]
      simpa using extractLayersLoop_fine ls [] hfine
    · rw [totalSize_flatten, List.map_map]
      rfl
  · decide
  · simp [totalSize]
    ring
  · simp [datadogPackageMaxSize]

/-- Witness for C10: the general success statement applied to the
concrete two-layer 3 GiB + 3 GiB image. -/
theorem extract_budget_per_layer_witness :
    ∃ written,
      extractPackageLayers
          ⟨.ok [{ mediaType := .ok datadogPackageLayerMediaType,
                  uncompressed := .ok [⟨"huge-a.bin", datadogPackageMaxSize⟩] },
                { mediaType := .ok datadogPackageLayerMediaType,
                  uncompressed := .ok [⟨"huge-b.bin", datadogPackageMaxSize⟩] }]⟩ =
        .ok written ∧
      totalSize written =
        ([{ mediaType := .ok datadogPackageLayerMediaType,
            uncompressed := .ok [⟨"huge-a.bin", datadogPackageMaxSize⟩] },
          { mediaType := .ok datadogPackageLayerMediaType,
            uncompressed := .ok [⟨"huge-b.bin", datadogPackageMaxSize⟩] }].map
          fun l => totalSize (layerPayload l)).sum := by
  refine extract_budget_per_layer.1
    ⟨.ok [{ mediaType := .ok datadogPackageLayerMediaType,
            uncompressed := .ok [⟨"huge-a.bin", datadogPackageMaxSize⟩] },
          { mediaType := .ok datadogPackageLayerMediaType,
            uncompressed := .ok [⟨"huge-b.bin", datadogPackageMaxSize⟩] }]⟩
    _ rfl ?_
  intro l hl
  simp only [List.mem_cons, List.not_mem_nil, or_false] at hl
  rcases hl with rfl | rfl
  · exact ⟨datadogPackageLayerMediaType, rfl,
      fun _ => ⟨[⟨"huge-a.bin", datadogPackageMaxSize⟩], rfl, by simp [totalSize]⟩⟩
  · exact ⟨datadogPackageLayerMediaType, rfl,
      fun _ => ⟨[⟨"huge-b.bin", datadogPackageMaxSize⟩], rfl, by simp [totalSize]⟩⟩

/-- Claim C4 fails on the code: an image with two payload layers of
2 GiB each extracts successfully — 4 GiB total uncompressed bytes,
above the 3 GiB package budget, with no PayloadTooLarge — because the
budget is applied to each layer separately. -/
theorem total_budget_counterexample :
    (extractPackageLayers
        ⟨.ok [{ mediaType := .ok datadogPackageLayerMediaType,
                uncompressed := .ok [⟨"data-a.bin", 2 <<< 30⟩] },
              { mediaType := .ok datadogPackageLayerMediaType,
                uncompressed := .ok [⟨"data-b.bin", 2 <<< 30⟩] }]⟩ =
      .ok [⟨"data-a.bin", 2 <<< 30⟩, ⟨"data-b.bin", 2 <<< 30⟩]) ∧
    (totalSize [⟨"data-a.bin", 2 <<< 30⟩, ⟨"data-b.bin", 2 <<< 30⟩] >
      datadogPackageMaxSize) := by
  constructor
  · decide
  · simp [totalSize, datadogPackageMaxSize]

/-- Claim C4 (amended): the 3 GiB uncompressed budget is enforced for
each payload layer separately: reaching a payload layer whose entries
total more than 3 GiB aborts extraction with PayloadTooLarge — in
particular an image whose single payload layer exceeds 3 GiB aborts,
so for images with one payload layer the total per-package bound
holds — but the budget is not shared across several payload layers. -/
theorem payload_too_large_per_layer :
    (∀ (dir entries : List TarEntry) (rest : List Layer),
      totalSize entries > datadogPackageMaxSize →
      extractLayersLoop dir
        (({ mediaType := .ok datadogPackageLayerMediaType,
            uncompressed := .ok entries } : Layer) :: rest) =
        .error .payloadTooLarge) ∧
    (∀ (image : Image) (l : Layer) (entries : List TarEntry),
      image.layers = .ok [l] →
      l.mediaType = .ok datadogPackageLayerMediaType →
      l.uncompressed = .ok entries →
      totalSize entries > datadogPackageMaxSize →
      extractPackageLayers image = .error .payloadTooLarge) := by
  constructor
  · exact extractLayersLoop_too_large
  · intro image l entries hls hmt hu hsize
    unfold extractPackageLayers
    rw [hls]
    show extractLayersLoop [] [l] = .error .payloadTooLarge
    obtain ⟨lmt, lu⟩ := l
    simp only [Layer.mediaType] at hmt
    simp only [Layer.uncompressed] at hu
    subst hmt
    subst hu
    exact extractLayersLoop_too_large [] entries [] hsize

/-- Witness for C4 (amended): a single payload layer of 4 GiB aborts
with PayloadTooLarge. -/
theorem payload_too_large_per_layer_witness :
    extractPackageLayers
        ⟨.ok [{ mediaType := .ok datadogPackageLayerMediaType,
                uncompressed := .ok [⟨"huge.bin", 4 <<< 30⟩] }]⟩ =
      .error .payloadTooLarge := by
  refine payload_too_large_per_layer.2
    ⟨.ok [{ mediaType := .ok datadogPackageLayerMediaType,
            uncompressed := .ok [⟨"huge.bin", 4 <<< 30⟩] }]⟩
    { mediaType := .ok datadogPackageLayerMediaType,
      uncompressed := .ok [⟨"huge.bin", 4 <<< 30⟩] }
    [⟨"huge.bin", 4 <<< 30⟩] rfl rfl rfl ?_
  simp [totalSize, datadogPackageMaxSize]

/-! ## Claim theorems: installer -/

/-- Claim C5: when a step after the staging directory is created and
before the repository transition fails — extraction for either
operation, or the repository lookup for installExperiment — the
deferred removal deletes the staging directory and no repository
transition (`Create` / `SetExperiment`) is invoked, leaving the
repository untouched. -/
theorem staging_cleanup_on_failure :
    (∀ (image : Image) (e : ExtractError) (createResult : Except String Unit),
      extractPackageLayers image = .error e →
      installStable (.ok ()) image createResult =
        ⟨true, true, false, .error (.extract e)⟩) ∧
    (∀ (image : Image) (e : ExtractError) (g s : Except String Unit),
      extractPackageLayers image = .error e →
      installExperiment (.ok ()) image g s =
        ⟨true, true, false, .error (.extract e)⟩) ∧
    (∀ (image : Image) (written : List TarEntry) (ge : String)
        (s : Except String Unit),
      extractPackageLayers image = .ok written →
      installExperiment (.ok ()) image (.error ge) s =
        ⟨true, true, false, .error (.getRepository ge)⟩) := by
  refine ⟨?_, ?_, ?_⟩
  · intro image e createResult hext
    unfold installStable
    rw [hext]
  · intro image e g s hext
    unfold installExperiment
    rw [hext]
  · intro image written ge s hext
    unfold installExperiment
    rw [hext]

/-- Witness for C5: a concrete image whose only payload layer exceeds
the budget makes both operations delete staging and skip the
repository transition; a readable image with a failing repository
lookup does the same for installExperiment. -/
theorem staging_cleanup_on_failure_witness :
    (installStable (.ok ())
        ⟨.ok [{ mediaType := .ok datadogPackageLayerMediaType,
                uncompressed := .ok [⟨"huge.bin", 4 <<< 30⟩] }]⟩ (.ok ()) =
      ⟨true, true, false, .error (.extract .payloadTooLarge)⟩) ∧
    (installExperiment (.ok ())
        ⟨.ok [{ mediaType := .ok datadogPackageLayerMediaType,
                uncompressed := .ok [⟨"huge.bin", 4 <<< 30⟩] }]⟩
        (.ok ()) (.ok ()) =
      ⟨true, true, false, .error (.extract .payloadTooLarge)⟩) ∧
    (installExperiment (.ok ()) ⟨.ok []⟩ (.error "repository not found")
        (.ok ()) =
      ⟨true, true, false, .error (.getRepository "repository not found")⟩) := by
  have hext : extractPackageLayers
      ⟨.ok [{ mediaType := .ok datadogPackageLayerMediaType,
              uncompressed := .ok [⟨"huge.bin", 4 <<< 30⟩] }]⟩ =
      .error .payloadTooLarge := by decide
  refine ⟨?_, ?_, ?_⟩
  · exact staging_cleanup_on_failure.1 _ _ (.ok ()) hext
  · exact staging_cleanup_on_failure.2.1 _ _ (.ok ()) (.ok ()) hext
  · exact staging_cleanup_on_failure.2.2 ⟨.ok []⟩ []
      "repository not found" (.ok ()) (by unfold extractPackageLayers extractLayersLoop; rfl)

/-- Claim C3 is right about the intent but wrong about the code: both
installStable and installExperiment create the staging directory with
os.MkdirTemp("", "") — the system temporary directory — so on a host
whose temp dir lives on a different filesystem from the repository
root (for instance /tmp on tmpfs with the repository under
/opt/datadog-packages) the staging directory is not colocated with the
repository and the final rename crosses filesystems. -/
theorem staging_not_colocated :
    stagingMkdirTempDir = "" ∧
    ¬ stagingColocated
        { tmpDir := "/tmp", repositoriesRoot := "/opt/datadog-packages",
          filesystemOf := fun p => if p = "/tmp" then 0 else 1 } := by
  constructor
  · rfl
  · intro h
    simp [stagingColocated, stagingParent, stagingMkdirTempDir] at h

end Updater
